import Mathlib

/-!
Shallow embedding of the statistical core of `iscat_lib/analysis.py`
(single-particle-tracking analysis): squared displacements, mean squared
displacement (sequential and parallel paths), BIC-based model selection,
relative likelihoods, classical MSD fit-range selection and ensemble
averaging.  Positions and times are embedded as rationals; quantities the
source obtains from `np.sqrt`, `np.log`, `np.exp` live in `ℝ`.
-/

namespace IscatLib

/-- Arithmetic mean of a list, `np.mean`: sum divided by length
(`0` on the empty list, where numpy would return `nan`). -/
def listMean (l : List ℚ) : ℚ := l.sum / l.length

/-- Population variance (square of `np.std`, which uses `ddof=0`):
mean of squared deviations from the mean. -/
def listVar (l : List ℚ) : ℚ :=
  ((l.map (fun v => (v - listMean l) ^ 2)).sum) / l.length

/-- `np.std(l) / np.sqrt(len(l))`: the standard-error value the source
stores in `MSD_error`. -/
noncomputable def listSem (l : List ℚ) : ℝ :=
  Real.sqrt (listVar l) / Real.sqrt (l.length : ℝ)

/-- Squared displacement between trajectory indices `i` and `i + j`:
`(pos_x[i+j] - pos_x[i])**2 + (pos_y[i+j] - pos_y[i])**2`. -/
def sqDisp (pos_x pos_y : List ℚ) (i j : ℕ) : ℚ :=
  (pos_x.getD (i + j) 0 - pos_x.getD i 0) ^ 2
    + (pos_y.getD (i + j) 0 - pos_y.getD i 0) ^ 2

/-- The unsorted squared-displacement list of `Track.SD` /
`_calculate_sd_at`: `idx_0 = np.arange(0, length_array - j - 1, 1)`,
`idx_t = idx_0 + j`, elementwise squared displacement. -/
def sdList (pos_x pos_y : List ℚ) (j : ℕ) : List ℚ :=
  (List.range (pos_x.length - j - 1)).map (fun i => sqDisp pos_x pos_y i j)

/-- `Track.SD` / `_calculate_sd_at`: squared displacements at lag `j`,
sorted ascending (`SD.sort()`). -/
def SD (pos_x pos_y : List ℚ) (j : ℕ) : List ℚ :=
  List.insertionSort (· ≤ ·) (sdList pos_x pos_y j)

/-- The squared displacements `calculateMSD` (and `MSD_loop`) average at
lag `i`: `idx_0 = np.arange(1, N - i - 1, 1)`, `idx_t = idx_0 + i` —
index pairs `(k, k + i)` for `k = 1 .. N - i - 2`.  Note the `1` start:
the pair `(0, i)` is not included. -/
def msdDisplacements (pos_x pos_y : List ℚ) (N i : ℕ) : List ℚ :=
  (List.range' 1 (N - i - 2)).map (fun k => sqDisp pos_x pos_y k i)

/-- `MSD_loop(i, pos_x, pos_y, N)` from the source: mean and
std-over-sqrt-length of the squared displacements at lag `i`. -/
noncomputable def MSD_loop (i : ℕ) (pos_x pos_y : List ℚ) (N : ℕ) : ℚ × ℝ :=
  (listMean (msdDisplacements pos_x pos_y N i),
   listSem (msdDisplacements pos_x pos_y N i))

/-- Sequential branch of `Track.calculateMSD`: the `MSD` array.  The loop
runs `for i in range(1, N-2)` and stores `np.mean(this_msd)` at `MSD[i-1]`,
so the result is the list of means for lags `1 .. N-3`. -/
def calculateMSD_seq (pos_x pos_y : List ℚ) (N : ℕ) : List ℚ :=
  (List.range' 1 (N - 3)).map (fun i => listMean (msdDisplacements pos_x pos_y N i))

/-- Sequential branch of `Track.calculateMSD`: the `MSD_error` array,
`np.std(this_msd) / np.sqrt(len(this_msd))` at each lag `1 .. N-3`. -/
noncomputable def calculateMSD_seq_error (pos_x pos_y : List ℚ) (N : ℕ) : List ℝ :=
  (List.range' 1 (N - 3)).map (fun i => listSem (msdDisplacements pos_x pos_y N i))

/-- Parallel branch of `Track.calculateMSD`: `executor.map(MSD_loop, i,
itertools.repeat(pos_y), itertools.repeat(pos_x), itertools.repeat(N))`
over `i = range(1, N-2)`, results written to slots `0, 1, ...` in input
order.  Note the source passes the track's `pos_y` as `MSD_loop`'s
`pos_x` argument and vice versa. -/
noncomputable def calculateMSD_par (pos_x pos_y : List ℚ) (N : ℕ) : List (ℚ × ℝ) :=
  (List.range' 1 (N - 3)).map (fun i => MSD_loop i pos_y pos_x N)

/-- Swapping the two coordinate lists does not change a squared
displacement: the sum of the two per-axis squares commutes. -/
lemma sqDisp_comm (pos_x pos_y : List ℚ) (i j : ℕ) :
    sqDisp pos_y pos_x i j = sqDisp pos_x pos_y i j := by
  simp only [sqDisp]; ring

/-- Swapping the coordinate lists does not change the averaged
squared-displacement list at a lag. -/
lemma msdDisplacements_comm (pos_x pos_y : List ℚ) (N i : ℕ) :
    msdDisplacements pos_y pos_x N i = msdDisplacements pos_x pos_y N i := by
  unfold msdDisplacements
  exact List.map_congr_left fun k _ => sqDisp_comm pos_x pos_y k i

/-- C8: for every trajectory and every lag `j` with `1 ≤ j < N`, the
squared-displacement computation (`Track.SD` / `_calculate_sd_at`)
returns a sequence of length exactly `N - j - 1`, sorted ascending. -/
theorem SD_length_sorted (pos_x pos_y : List ℚ) (j : ℕ)
    (h1 : 1 ≤ j) (h2 : j < pos_x.length) :
    (SD pos_x pos_y j).length = pos_x.length - j - 1 ∧
    List.Sorted (· ≤ ·) (SD pos_x pos_y j) :=
  ⟨by simp [SD, sdList, List.length_insertionSort],
   List.sorted_insertionSort _ _⟩

/-- Witness for C8 at the concrete track `x = [0, 1, 3]`, `y = [0, 0, 0]`,
lag `j = 1`. -/
theorem SD_length_sorted_witness :
    (SD [(0:ℚ), 1, 3] [0, 0, 0] 1).length = 1 ∧
    List.Sorted (· ≤ ·) (SD [(0:ℚ), 1, 3] [0, 0, 0] 1) :=
  SD_length_sorted [(0:ℚ), 1, 3] [0, 0, 0] 1 (by decide) (by decide)

/-- C7: for every trajectory of length `N ≥ 4`, `calculateMSD` produces
`MSD` and `MSD_error` arrays of length exactly `N - 3` (the arrays are
`np.zeros((N-3,))` filled by the loop over lags `1 .. N-3`). -/
theorem calculateMSD_length (pos_x pos_y : List ℚ) (h : 4 ≤ pos_x.length) :
    (calculateMSD_seq pos_x pos_y pos_x.length).length = pos_x.length - 3 ∧
    (calculateMSD_seq_error pos_x pos_y pos_x.length).length = pos_x.length - 3 := by
  constructor <;> simp [calculateMSD_seq, calculateMSD_seq_error]

/-- Witness for C7 at the concrete five-point track `x = [0, 1, 2, 3, 4]`,
`y = [0, 0, 0, 0, 0]`. -/
theorem calculateMSD_length_witness :
    (calculateMSD_seq [(0:ℚ), 1, 2, 3, 4] [0, 0, 0, 0, 0] 5).length = 2 ∧
    (calculateMSD_seq_error [(0:ℚ), 1, 2, 3, 4] [0, 0, 0, 0, 0] 5).length = 2 :=
  calculateMSD_length [(0:ℚ), 1, 2, 3, 4] [0, 0, 0, 0, 0] (by decide)

/-- C3: the sequential branch of `calculateMSD` and the parallel branch
(`executor.map` of `MSD_loop` over the lags, with the source's swapped
`pos_y`/`pos_x` arguments, results stored in input order) produce
identical `MSD` and `MSD_error` arrays, and the parallel worker value at
lag `i` is exactly the sequential lag-`i` entry. -/
theorem calculateMSD_par_eq_seq (pos_x pos_y : List ℚ) (N : ℕ) :
    (calculateMSD_par pos_x pos_y N).map Prod.fst = calculateMSD_seq pos_x pos_y N ∧
    (calculateMSD_par pos_x pos_y N).map Prod.snd = calculateMSD_seq_error pos_x pos_y N ∧
    ∀ i : ℕ, MSD_loop i pos_y pos_x N =
      (listMean (msdDisplacements pos_x pos_y N i),
       listSem (msdDisplacements pos_x pos_y N i)) := by
  refine ⟨?_, ?_, ?_⟩
  · simp only [calculateMSD_par, calculateMSD_seq, List.map_map]
    exact List.map_congr_left fun i _ => by
      simp only [Function.comp_apply, MSD_loop]
      rw [msdDisplacements_comm pos_x pos_y N i]
  · simp only [calculateMSD_par, calculateMSD_seq_error, List.map_map]
    exact List.map_congr_left fun i _ => by
      simp only [Function.comp_apply, MSD_loop]
      rw [msdDisplacements_comm pos_x pos_y N i]
  · intro i
    simp only [MSD_loop]
    rw [msdDisplacements_comm pos_x pos_y N i]

/-- C2 counterexample: on the track `x = [10, 0, 0, 0, 0]`,
`y = [0, 0, 0, 0, 0]`, the `calculateMSD` entry at lag 1 is `0` (mean
over the pairs starting at index 1), while the mean of the full
squared-displacement distribution at lag 1 (`Track.SD`, all pairs
`(i, i+1)`, including `(0, 1)`) is `100/3`. -/
theorem calculateMSD_skips_first_pair :
    (calculateMSD_seq [10, 0, 0, 0, 0] [0, 0, 0, 0, 0] 5).getD 0 0
      ≠ listMean (SD [10, 0, 0, 0, 0] [0, 0, 0, 0, 0] 1) := by
  have h1 : (calculateMSD_seq [10, 0, 0, 0, 0] [0, 0, 0, 0, 0] 5).getD 0 0 = 0 := by
    norm_num [calculateMSD_seq, msdDisplacements, listMean, sqDisp, List.range']
  have h2 : listMean (SD [10, 0, 0, 0, 0] [0, 0, 0, 0, 0] 1) = 100 / 3 := by
    norm_num [SD, sdList, listMean, sqDisp, List.range, List.range.loop,
      List.insertionSort, List.orderedInsert]
  rw [h1, h2]
  norm_num

/-- C2 (amended): for every trajectory of length `N ≥ 4` and lag
`1 ≤ j ≤ N - 3`, the MSD entry at lag `j` is the mean — and the error
entry the `std/sqrt(len)` value — of the `N - j - 2` squared
displacements over the index pairs `(i, i+j)` with `1 ≤ i ≤ N - j - 2`;
this set omits exactly the first pair `(0, j)` of the full
squared-displacement distribution. -/
theorem calculateMSD_entry (pos_x pos_y : List ℚ) (j : ℕ)
    (h1 : 1 ≤ j) (h2 : j ≤ pos_x.length - 3) :
    (calculateMSD_seq pos_x pos_y pos_x.length).getD (j - 1) 0
      = listMean (msdDisplacements pos_x pos_y pos_x.length j) ∧
    (calculateMSD_seq_error pos_x pos_y pos_x.length).getD (j - 1) 0
      = listSem (msdDisplacements pos_x pos_y pos_x.length j) ∧
    (msdDisplacements pos_x pos_y pos_x.length j).length = pos_x.length - j - 2 ∧
    sdList pos_x pos_y j
      = sqDisp pos_x pos_y 0 j :: msdDisplacements pos_x pos_y pos_x.length j := by
  have hlen : 4 ≤ pos_x.length := by omega
  have hj : j - 1 < pos_x.length - 3 := by omega
  have e1 : (List.range' 1 (pos_x.length - 3))[j - 1]? = some (1 + (j - 1)) := by
    simp [List.getElem?_range', hj]
  have ej : 1 + (j - 1) = j := by omega
  refine ⟨?_, ?_, ?_, ?_⟩
  · simp [calculateMSD_seq, List.getD_eq_getElem?_getD, List.getElem?_map, e1, ej]
  · simp [calculateMSD_seq_error, List.getD_eq_getElem?_getD, List.getElem?_map, e1, ej]
  · simp [msdDisplacements]
  · have hsplit : pos_x.length - j - 1 = (pos_x.length - j - 2) + 1 := by omega
    rw [sdList, hsplit, List.range_succ_eq_map]
    simp only [List.map_cons, List.map_map, msdDisplacements,
      List.range'_eq_map_range]
    refine congrArg _ ?_
    exact List.map_congr_left fun k _ => by
      simp [Function.comp_apply, Nat.succ_eq_add_one, Nat.add_comm]

/-- Witness for C2 (amended) at the track `x = [10, 0, 0, 0, 0]`,
`y = [0, 0, 0, 0, 0]`, lag `j = 1`. -/
theorem calculateMSD_entry_witness :
    (calculateMSD_seq [10, 0, 0, 0, 0] [0, 0, 0, 0, 0] 5).getD 0 0
      = listMean (msdDisplacements [10, 0, 0, 0, 0] [0, 0, 0, 0, 0] 5 1) ∧
    (calculateMSD_seq_error [10, 0, 0, 0, 0] [0, 0, 0, 0, 0] 5).getD 0 0
      = listSem (msdDisplacements [10, 0, 0, 0, 0] [0, 0, 0, 0, 0] 5 1) ∧
    (msdDisplacements [10, 0, 0, 0, 0] [0, 0, 0, 0, 0] 5 1).length = 2 ∧
    sdList [10, 0, 0, 0, 0] [0, 0, 0, 0, 0] 1
      = sqDisp [10, 0, 0, 0, 0] [0, 0, 0, 0, 0] 0 1
          :: msdDisplacements [10, 0, 0, 0, 0] [0, 0, 0, 0, 0] 5 1 :=
  calculateMSD_entry [10, 0, 0, 0, 0] [0, 0, 0, 0, 0] 1 (by decide) (by decide)

/-- Residual sum of squares, `np.sum((np.array(pred) - np.array(target)) ** 2)`
over elementwise-paired prediction and target values. -/
noncomputable def RSS (pred target : List ℝ) : ℝ :=
  (List.zipWith (fun a b => (a - b) ^ 2) pred target).sum

/-- `BIC(pred, target, k, n) = k * np.log(n) + n * np.log(RSS / n)` from
the source (`k`: number of free parameters, `n`: "number of data points",
passed as `1` at every call site). -/
noncomputable def BIC (pred target : List ℝ) (k : ℕ) (n : ℝ) : ℝ :=
  k * Real.log n + n * Real.log (RSS pred target / n)

/-- Relative likelihood as computed at every call site:
`np.exp((bic - bic_min) * 0.5)`. -/
noncomputable def rel_likelihood (bic bic_min : ℝ) : ℝ :=
  Real.exp ((bic - bic_min) * 0.5)

/-- The three relative likelihoods `adc_analysis` computes from the
Brownian, confined and hop BIC values, with
`bic_min = min([bic_brownian, bic_confined, bic_hop])`. -/
noncomputable def adc_rel_likelihoods (bic_brownian bic_confined bic_hop : ℝ) :
    ℝ × ℝ × ℝ :=
  (rel_likelihood bic_brownian (min bic_brownian (min bic_confined bic_hop)),
   rel_likelihood bic_confined (min bic_brownian (min bic_confined bic_hop)),
   rel_likelihood bic_hop (min bic_brownian (min bic_confined bic_hop)))

/-- One relative likelihood is `1` when its BIC is the minimum, and every
relative likelihood is at least `1`. -/
lemma rel_likelihood_ge_one {b m : ℝ} (h : m ≤ b) : 1 ≤ rel_likelihood b m :=
  Real.one_le_exp (by nlinarith)

lemma rel_likelihood_self (m : ℝ) : rel_likelihood m m = 1 := by
  simp [rel_likelihood]

/-- C1 counterexample: with BIC values `(0, 2, 2)` the confined model is
not the minimum-BIC model, and its relative likelihood
`exp((2 - 0) * 0.5) = exp 1` is strictly greater than `1`, hence not in
the claimed interval `(0, 1]`. -/
theorem rel_likelihood_not_le_one :
    ¬ (adc_rel_likelihoods 0 2 2).2.1 ≤ 1 := by
  have hmin : min (0:ℝ) (min 2 2) = 0 := by norm_num
  have h1 : (adc_rel_likelihoods 0 2 2).2.1 = Real.exp 1 := by
    simp only [adc_rel_likelihoods, rel_likelihood, hmin]
    norm_num
  rw [h1]
  exact not_le.2 (Real.one_lt_exp_iff.2 one_pos)

/-- C1 (amended): each relative likelihood is `exp((BIC_model - BIC_min)/2)`;
the minimum of the three relative likelihoods — attained by the
minimum-BIC model — is exactly `1`, and every model's relative likelihood
lies in `[1, ∞)`. -/
theorem adc_rel_likelihoods_spec (bb bc bh : ℝ) :
    adc_rel_likelihoods bb bc bh =
      (Real.exp ((bb - min bb (min bc bh)) * 0.5),
       Real.exp ((bc - min bb (min bc bh)) * 0.5),
       Real.exp ((bh - min bb (min bc bh)) * 0.5)) ∧
    min (adc_rel_likelihoods bb bc bh).1
      (min (adc_rel_likelihoods bb bc bh).2.1 (adc_rel_likelihoods bb bc bh).2.2) = 1 ∧
    1 ≤ (adc_rel_likelihoods bb bc bh).1 ∧
    1 ≤ (adc_rel_likelihoods bb bc bh).2.1 ∧
    1 ≤ (adc_rel_likelihoods bb bc bh).2.2 := by
  have g1 : 1 ≤ (adc_rel_likelihoods bb bc bh).1 :=
    rel_likelihood_ge_one (min_le_left _ _)
  have g2 : 1 ≤ (adc_rel_likelihoods bb bc bh).2.1 :=
    rel_likelihood_ge_one (le_trans (min_le_right _ _) (min_le_left _ _))
  have g3 : 1 ≤ (adc_rel_likelihoods bb bc bh).2.2 :=
    rel_likelihood_ge_one (le_trans (min_le_right _ _) (min_le_right _ _))
  refine ⟨rfl, ?_, g1, g2, g3⟩
  rcases min_choice bb (min bc bh) with hb | hrest
  · have : (adc_rel_likelihoods bb bc bh).1 = 1 := by
      simp only [adc_rel_likelihoods]
      rw [hb]; exact rel_likelihood_self bb
    rw [this]
    exact min_eq_left (le_min g2 g3)
  · rcases min_choice bc bh with hc | hh
    · have h2' : (adc_rel_likelihoods bb bc bh).2.1 = 1 := by
        simp only [adc_rel_likelihoods]
        rw [hrest, hc]; exact rel_likelihood_self bc
      rw [h2', min_eq_left g3, min_eq_right g1]
    · have h3' : (adc_rel_likelihoods bb bc bh).2.2 = 1 := by
        simp only [adc_rel_likelihoods]
        rw [hrest, hh]; exact rel_likelihood_self bh
      rw [h3', min_eq_right g2, min_eq_right g1]

/-- C6: with `n = 1`, as passed at every call site, the BIC score
`k * ln n + n * ln(RSS / n)` collapses to `ln RSS`; it is independent of
the parameter count `k`, and comparing two such scores is the same as
comparing the residual sums of squares, so minimum-BIC selection is
minimum-RSS selection. -/
theorem BIC_at_n_one (pred target pred2 target2 : List ℝ) (k k2 : ℕ)
    (h1 : 0 < RSS pred target) (h2 : 0 < RSS pred2 target2) :
    BIC pred target k 1 = Real.log (RSS pred target) ∧
    BIC pred target k 1 = BIC pred target k2 1 ∧
    (BIC pred target k 1 ≤ BIC pred2 target2 k2 1 ↔
      RSS pred target ≤ RSS pred2 target2) := by
  have e : ∀ (p t : List ℝ) (m : ℕ), BIC p t m 1 = Real.log (RSS p t) := by
    intro p t m
    simp [BIC, Real.log_one]
  refine ⟨e pred target k, by rw [e, e], ?_⟩
  rw [e, e]
  exact Real.log_le_log_iff h1 h2

/-- Witness for C6 with `pred = [1]`, `target = [0]` (RSS `1`),
`pred2 = [2]`, `target2 = [0]` (RSS `4`), `k = 2`, `k2 = 4`. -/
theorem BIC_at_n_one_witness :
    BIC [1] [0] 2 1 = Real.log (RSS [1] [0]) ∧
    BIC [1] [0] 2 1 = BIC [1] [0] 4 1 ∧
    (BIC [1] [0] 2 1 ≤ BIC [2] [0] 4 1 ↔ RSS [1] [0] ≤ RSS [2] [0]) :=
  BIC_at_n_one [1] [0] [2] [0] 2 4 (by norm_num [RSS]) (by norm_num [RSS])

/-- The category-selection chain of `adc_analysis`:
`bic_min = min([bic_brownian, bic_confined, bic_hop])`, then the
`if / elif / elif / else "unknown"` ladder comparing `bic_min` with each
model's BIC. -/
def adc_category (bic_brownian bic_confined bic_hop : ℚ) : String :=
  if min bic_brownian (min bic_confined bic_hop) = bic_brownian then "brownian"
  else if min bic_brownian (min bic_confined bic_hop) = bic_confined then "confined"
  else if min bic_brownian (min bic_confined bic_hop) = bic_hop then "hop"
  else "unknown"

/-- Per-track fit-and-classify sequence of `adc_analysis`: the three
`optimize.curve_fit` calls run in order with no exception handler
(`curve_fit` raises `RuntimeError` when `maxfev` is exhausted, modelled
as `Except.error`), then the three BIC values of the fitted models are
compared.  The fit outcomes are inputs, and the BIC computation from the
fitted parameters is an opaque argument, since `curve_fit`'s numerics are
external. -/
def adc_fit_and_classify (r_brownian r_confined r_hop : Except String (List ℚ))
    (bics : List ℚ → List ℚ → List ℚ → ℚ × ℚ × ℚ) : Except String String := do
  let pb ← r_brownian
  let pc ← r_confined
  let ph ← r_hop
  let b := bics pb pc ph
  pure (adc_category b.1 b.2.1 b.2.2)

/-- C4: in `adc_analysis` a diverged `curve_fit` (evaluation budget
`maxfev` exhausted) is not recovered: the error propagates out of the
per-track loop, aborting the whole analysis instead of excluding the
model, and the `"unknown"` branch of the category ladder is unreachable,
since the minimum of the three BIC values always equals one of them. -/
theorem adc_divergence_not_recovered :
    (∀ (bics : List ℚ → List ℚ → List ℚ → ℚ × ℚ × ℚ)
        (r_confined r_hop : Except String (List ℚ)),
      adc_fit_and_classify (Except.error "maxfev exceeded") r_confined r_hop bics
        = Except.error "maxfev exceeded") ∧
    (∀ bb bc bh : ℚ, adc_category bb bc bh ≠ "unknown") := by
  constructor
  · intro bics r_confined r_hop
    rfl
  · intro bb bc bh
    unfold adc_category
    split_ifs with h1 h2 h3
    · decide
    · decide
    · decide
    · exfalso
      rcases min_choice bb (min bc bh) with h | h
      · exact h1 h
      · rcases min_choice bc bh with h' | h'
        · exact h2 (h.trans h')
        · exact h3 (h.trans h')

/-- Accumulator state of the `smartAveraging` category loop: the running
elementwise sums held in the `average_D_app_*` / `average_MSD_*` arrays
before the final division, and the three category counters. -/
structure SmartAccum where
  avg_D_app_brownian : List ℚ
  avg_D_app_confined : List ℚ
  avg_D_app_hop : List ℚ
  avg_MSD_brownian : List ℚ
  avg_MSD_confined : List ℚ
  avg_MSD_hop : List ℚ
  counter_brownian : ℕ
  counter_confined : ℕ
  counter_hop : ℕ

/-- Elementwise `+=` of two equal-length numpy arrays. -/
def addLists (a b : List ℚ) : List ℚ := List.zipWith (· + ·) a b

/-- One iteration of the `for k in range(0, len(tracks))` category loop of
`smartAveraging`: an entry is `(models[k], D_app[k], MSD[k][0])`;
`"unknown"` is skipped by `continue`, an invalid name raises
`ValueError`. -/
def smartStep (acc : SmartAccum) (p : String × List ℚ × List ℚ) :
    Except String SmartAccum :=
  if p.1 = "brownian" then
    Except.ok { acc with
      counter_brownian := acc.counter_brownian + 1,
      avg_D_app_brownian := addLists acc.avg_D_app_brownian p.2.1,
      avg_MSD_brownian := addLists acc.avg_MSD_brownian p.2.2 }
  else if p.1 = "confined" then
    Except.ok { acc with
      counter_confined := acc.counter_confined + 1,
      avg_D_app_confined := addLists acc.avg_D_app_confined p.2.1,
      avg_MSD_confined := addLists acc.avg_MSD_confined p.2.2 }
  else if p.1 = "hop" then
    Except.ok { acc with
      counter_hop := acc.counter_hop + 1,
      avg_D_app_hop := addLists acc.avg_D_app_hop p.2.1,
      avg_MSD_hop := addLists acc.avg_MSD_hop p.2.2 }
  else if p.1 = "unknown" then Except.ok acc
  else Except.error "Invalid model name encountered"

/-- The `smartAveraging` accumulation loop, starting from the
`np.zeros(track_length - 3)` arrays and zero counters. -/
def smartAveraging_loop (entries : List (String × List ℚ × List ℚ))
    (track_length : ℕ) : Except String SmartAccum :=
  entries.foldlM smartStep
    ⟨List.replicate (track_length - 3) 0, List.replicate (track_length - 3) 0,
     List.replicate (track_length - 3) 0, List.replicate (track_length - 3) 0,
     List.replicate (track_length - 3) 0, List.replicate (track_length - 3) 0,
     0, 0, 0⟩

/-- The final division step of `smartAveraging`: every sum array is
divided elementwise by its category counter, unconditionally (in the
source this is numpy float division, which emits `nan`/`inf` entries when
the counter is `0`; in `ℚ` division by zero yields `0`). -/
def smartAveraging_averages (acc : SmartAccum) :
    (List ℚ × List ℚ × List ℚ) × (List ℚ × List ℚ × List ℚ) :=
  ((acc.avg_D_app_brownian.map (fun v => v / (acc.counter_brownian : ℚ)),
    acc.avg_D_app_confined.map (fun v => v / (acc.counter_confined : ℚ)),
    acc.avg_D_app_hop.map (fun v => v / (acc.counter_hop : ℚ))),
   (acc.avg_MSD_brownian.map (fun v => v / (acc.counter_brownian : ℚ)),
    acc.avg_MSD_confined.map (fun v => v / (acc.counter_confined : ℚ)),
    acc.avg_MSD_hop.map (fun v => v / (acc.counter_hop : ℚ))))

/-- C5: on an input whose only track is classified `"brownian"`
(`track_length = 5`, curves of length `2`), the `smartAveraging` loop
completes with `counter_confined = 0` and `counter_hop = 0`, and the
division step still computes the confined and hop group means with those
zero counters as divisors — empty categories are not skipped.  The third
conjunct records that the division step divides every category by its
counter unconditionally. -/
theorem smartAveraging_zero_divisor :
    (smartAveraging_loop [("brownian", [1, 2], [3, 4])] 5).map
        (fun acc => (acc.counter_brownian, acc.counter_confined, acc.counter_hop))
      = Except.ok (1, 0, 0) ∧
    (smartAveraging_loop [("brownian", [1, 2], [3, 4])] 5).map
        smartAveraging_averages
      = Except.ok (([1, 2], [0, 0], [0, 0]), ([3, 4], [0, 0], [0, 0])) ∧
    (∀ acc : SmartAccum,
      (smartAveraging_averages acc).1.2.1
        = acc.avg_D_app_confined.map (fun v => v / (acc.counter_confined : ℚ))) := by
  refine ⟨?_, ?_, fun acc => rfl⟩
  · norm_num [smartAveraging_loop, smartStep, addLists, Except.map, List.replicate]
  · norm_num [smartAveraging_loop, smartStep, addLists, smartAveraging_averages,
      Except.map, List.replicate]

/-- Python `int()` applied to a rational: truncation toward zero. -/
def pyInt (q : ℚ) : ℤ := if 0 ≤ q then ⌊q⌋ else ⌈q⌉

/-- `n_points` selection in `Track.classicalMSDAnalysis`:
`int(fractionFitPoints * N)` when `nFitPoints` is `None`, otherwise
`int(nFitPoints)`. -/
def n_points_from (fractionFitPoints : ℚ) (nFitPoints : Option ℤ) (N : ℕ) : ℤ :=
  match nFitPoints with
  | none => pyInt (fractionFitPoints * N)
  | some n => n

/-- The excessive-fit-fraction warning condition of
`Track.classicalMSDAnalysis`: `n_points > int(0.25 * N)`. -/
def fit_warning (n_points : ℤ) (N : ℕ) : Prop :=
  pyInt ((0.25 : ℚ) * N) < n_points

/-- Python slice `l[0:n]` for `n ≥ 0`: numpy slicing clamps at the array
length instead of raising. -/
def pySlice (l : List ℚ) (n : ℤ) : List ℚ := l.take n.toNat

/-- Python single-element index `l[n]`: `none` models an `IndexError`
(index out of bounds; negative indices count from the end). -/
def pyIndex (l : List ℚ) (n : ℤ) : Option ℚ :=
  if 0 ≤ n then l[n.toNat]?
  else if (-n).toNat ≤ l.length then l[l.length - (-n).toNat]? else none

/-- The fit time array `T = np.linspace(1, N, N, endpoint=True)` of
`Track.classicalMSDAnalysis`: `[1, 2, ..., N]`. -/
def linspace_one (N : ℕ) : List ℚ := List.map (fun k : ℕ => (k : ℚ) + 1) (List.range N)

/-- C9: with `fractionFitPoints = 1.1` on a 40-point MSD curve,
`n_points = int(1.1 * 40) = 44`; the `n_points >= 2` assertion passes,
the excessive-fit-fraction warning fires (`44 > int(0.25 * 40) = 10`),
and the fit slices `T[0:44]` / `MSD[0:44]` clamp to all 40 available
points and no more — but the subsequent plot-range expression
`T[n_points]` indexes position 44 of the 40-element time array, an
`IndexError`, so the analysis call crashes after the fit. -/
theorem classicalMSD_overfraction :
    n_points_from (1.1 : ℚ) none 40 = 44 ∧
    2 ≤ n_points_from (1.1 : ℚ) none 40 ∧
    fit_warning (n_points_from (1.1 : ℚ) none 40) 40 ∧
    pySlice (linspace_one 40) (n_points_from (1.1 : ℚ) none 40) = linspace_one 40 ∧
    (pySlice (linspace_one 40) (n_points_from (1.1 : ℚ) none 40)).length = 40 ∧
    pyIndex (linspace_one 40) (n_points_from (1.1 : ℚ) none 40) = none := by
  have hN : n_points_from (1.1 : ℚ) none 40 = 44 := by
    simp only [n_points_from, pyInt]
    norm_num
  have hlen : (linspace_one 40).length = 40 := by
    rw [linspace_one, List.length_map, List.length_range]
  refine ⟨hN, by rw [hN]; norm_num, ?_, ?_, ?_, ?_⟩
  · rw [hN]
    simp only [fit_warning, pyInt]
    norm_num
  · rw [hN]
    exact List.take_of_length_le (by rw [hlen]; norm_num)
  · rw [hN]
    rw [pySlice, List.take_of_length_le (by rw [hlen]; norm_num)]
    exact hlen
  · rw [hN, pyIndex]
    rw [if_pos (by norm_num)]
    exact List.getElem?_eq_none (by rw [hlen]; norm_num)

/-- The `Track` object state: coordinate arrays `_x`, `_y`, timestamp
array `_t`, and the cached `_MSD` / `_MSD_error` arrays (`None` until
`calculateMSD` has run). -/
structure Track where
  x : List ℚ
  y : List ℚ
  t : List ℚ
  MSD : Option (List ℚ) := none
  MSD_error : Option (List ℝ) := none

/-- `np.min` of a nonempty array (junk `0` on the empty list, where numpy
raises). -/
def listMin : List ℚ → ℚ
  | [] => 0
  | h :: tl => tl.foldl min h

/-- `np.max` of a nonempty array (junk `0` on the empty list, where numpy
raises). -/
def listMax : List ℚ → ℚ
  | [] => 0
  | h :: tl => tl.foldl max h

/-- The data `Track.normalize` packs into the `NormalizedTrack` it
constructs: rescaled coordinates and the normalization spans. -/
structure NormalizedTrackData where
  x : List ℚ
  y : List ℚ
  t : List ℚ
  xy_min : ℚ
  xy_max : ℚ
  tmin : ℚ
  tmax : ℚ

/-- `Track.normalize`: computes spans (note the source takes
`xy_max = min([xmax, ymax])`, with `min`), rescales `x`, `y`, `t` into
fresh arrays, and assigns the new `NormalizedTrack` to the method-local
name `self` — a local rebinding, so the caller's object is unchanged.
The embedding returns the caller-visible track (unchanged) together with
the constructed data. -/
def Track.normalize (tr : Track) : Track × NormalizedTrackData :=
  let xy_min := min (listMin tr.x) (listMin tr.y)
  let xy_max := min (listMax tr.x) (listMax tr.y)
  let tmin := listMin tr.t
  let tmax := listMax tr.t
  (tr,
   ⟨tr.x.map (fun v => (v - xy_min) / (xy_max - xy_min)),
    tr.y.map (fun v => (v - xy_min) / (xy_max - xy_min)),
    tr.t.map (fun v => (v - tmin) / (tmax - tmin)),
    xy_min, xy_max, tmin, tmax⟩)

/-- `Track.SD` as a method: reads `_x`, `_y`, returns the sorted squared
displacements without touching the track. -/
def Track.trackSD (tr : Track) (j : ℕ) : List ℚ :=
  IscatLib.SD tr.x tr.y j

/-- `Track.calculateMSD` as a state update: recomputes the `MSD` and
`MSD_error` arrays (lag limit `N` defaulting to the track length) and
stores them on the object; `_x`, `_y`, `_t` are only read. -/
noncomputable def Track.calculateMSD (tr : Track) (N : Option ℕ) : Track :=
  let n := N.getD tr.x.length
  { tr with
    MSD := some (calculateMSD_seq tr.x tr.y n),
    MSD_error := some (calculateMSD_seq_error tr.x tr.y n) }

/-- The state-and-fit-range part of `Track.classicalMSDAnalysis`: runs
`calculateMSD` first when `_MSD is None`, then selects `n_points` from
the cached MSD length.  (The fitting, BIC and plotting steps read the
arrays but never assign to `_x`, `_y` or `_t`.) -/
noncomputable def Track.classicalMSDAnalysis (tr : Track)
    (fractionFitPoints : ℚ) (nFitPoints : Option ℤ) : Track × ℤ :=
  let tr2 := match tr.MSD with
    | none => tr.calculateMSD none
    | some _ => tr
  (tr2, n_points_from fractionFitPoints nFitPoints (tr2.MSD.getD []).length)

/-- C10: none of the analysis operations modifies the coordinate or
timestamp arrays of the track it is called on: `calculateMSD` and
`classicalMSDAnalysis` preserve `_x`, `_y`, `_t`; `normalize` returns the
caller's object entirely unchanged (same `Track`, no type change); and
`SD` is a pure read of `_x`, `_y`. -/
theorem track_arrays_immutable (tr : Track) (N : Option ℕ) (j : ℕ)
    (fr : ℚ) (nfp : Option ℤ) :
    (tr.calculateMSD N).x = tr.x ∧ (tr.calculateMSD N).y = tr.y ∧
      (tr.calculateMSD N).t = tr.t ∧
    tr.normalize.1 = tr ∧
    (tr.classicalMSDAnalysis fr nfp).1.x = tr.x ∧
    (tr.classicalMSDAnalysis fr nfp).1.y = tr.y ∧
    (tr.classicalMSDAnalysis fr nfp).1.t = tr.t ∧
    tr.trackSD j = IscatLib.SD tr.x tr.y j := by
  refine ⟨rfl, rfl, rfl, rfl, ?_, ?_, ?_, rfl⟩ <;>
    · simp only [Track.classicalMSDAnalysis]
      cases tr.MSD <;> rfl

end IscatLib
